import Mathlib

/-!
Shallow embedding of the `genmesh` vertex-stream library (`src/poly.rs`,
`src/triangulate.rs`, and the generators `src/cone.rs`, `src/tetrahedron.rs`,
`src/octahedron.rs`, `src/dodecahedron.rs`).

Rust's `VecDeque<T>` vertex containers become `List T` (push_back = append at
the back), the callback-based emission protocols (`emit_vertices`,
`emit_lines`, `emit_triangles`) become functions returning the list of emitted
items in emission order, and the buffered streaming adapters become an explicit
state-passing step function over (remaining upstream shapes, local buffer).
The floating-point vertex payload of the generators is kept abstract: every
generator computes each corner by applying its private `vert` function to a
face's integer entries, so the embedding is parameterised by `vert : Nat → V`.
-/

namespace Genmesh

/-- A line: ordered pair of points (`Line` in `src/poly.rs`). -/
structure Line (T : Type) where
  x : T
  y : T
deriving DecidableEq

/-- A polygon with 3 points (`Triangle` in `src/poly.rs`). -/
structure Triangle (T : Type) where
  x : T
  y : T
  z : T
deriving DecidableEq

/-- A polygon with 4 points (`Quad` in `src/poly.rs`). -/
structure Quad (T : Type) where
  x : T
  y : T
  z : T
  w : T
deriving DecidableEq

/-- An arbitrary-length polygon (`NGon` in `src/poly.rs`); `verts` is the
`VecDeque` of vertices in insertion (push_back) order. -/
structure NGon (T : Type) where
  verts : List T
deriving DecidableEq

/-- The closed sum type over the three polygon shapes (`Polygon` in
`src/poly.rs`). -/
inductive Polygon (T : Type) where
  | PolyTri : Triangle T → Polygon T
  | PolyQuad : Quad T → Polygon T
  | PolyNGon : NGon T → Polygon T
deriving DecidableEq

/-- Variant tag of a `Polygon`, used to state variant preservation. -/
inductive PolyKind where
  | tri : PolyKind
  | quad : PolyKind
  | ngon : PolyKind
deriving DecidableEq

/-- Which variant a polygon is. -/
def Polygon.kind {T : Type} : Polygon T → PolyKind
  | .PolyTri _ => .tri
  | .PolyQuad _ => .quad
  | .PolyNGon _ => .ngon

/-! ## Vertex emission (`EmitVertices` impls in `src/poly.rs`) -/

/-- `impl EmitVertices for Triangle`: emit x, y, z. -/
def Triangle.emit_vertices {T : Type} (t : Triangle T) : List T :=
  [t.x, t.y, t.z]

/-- `impl EmitVertices for Quad`: emit x, y, z, w. -/
def Quad.emit_vertices {T : Type} (q : Quad T) : List T :=
  [q.x, q.y, q.z, q.w]

/-- `impl EmitVertices for NGon`: emit the vertices in insertion order. -/
def NGon.emit_vertices {T : Type} (g : NGon T) : List T :=
  g.verts

/-- `impl EmitVertices for Polygon`: dispatch on the variant. -/
def Polygon.emit_vertices {T : Type} : Polygon T → List T
  | .PolyTri t => t.emit_vertices
  | .PolyQuad q => q.emit_vertices
  | .PolyNGon g => g.emit_vertices

/-! ## Edge emission (`EmitLines` impls in `src/poly.rs`) -/

/-- `impl EmitLines for Triangle`: the three cycle-closing edges. -/
def Triangle.emit_lines {T : Type} (t : Triangle T) : List (Line T) :=
  [Line.mk t.x t.y, Line.mk t.y t.z, Line.mk t.z t.x]

/-- `impl EmitLines for Quad`: the four cycle-closing edges. -/
def Quad.emit_lines {T : Type} (q : Quad T) : List (Line T) :=
  [Line.mk q.x q.y, Line.mk q.y q.z, Line.mk q.z q.w, Line.mk q.w q.x]

/-- The `for end in iter { emit(Line::new(start, end)); start = end }` loop of
`impl EmitLines for NGon`. -/
def lineChain {T : Type} : T → List T → List (Line T)
  | _, [] => []
  | start, e :: rest => Line.mk start e :: lineChain e rest

/-- `impl EmitLines for NGon`: consecutive edges, not closing the loop.
(The `debug_assert!(self.verts.len() >= 2)` is compiled out in release
builds and is not modelled.) -/
def NGon.emit_lines {T : Type} (g : NGon T) : List (Line T) :=
  match g.verts with
  | [] => []
  | v :: rest => lineChain v rest

/-- `impl EmitLines for Polygon`: dispatch on the variant. -/
def Polygon.emit_lines {T : Type} : Polygon T → List (Line T)
  | .PolyTri t => t.emit_lines
  | .PolyQuad q => q.emit_lines
  | .PolyNGon g => g.emit_lines

/-! ## Triangle emission (`EmitTriangles` impls in `src/triangulate.rs`) -/

/-- `impl EmitTriangles for Triangle`: emit the triangle unchanged. -/
def Triangle.emit_triangles {T : Type} (t : Triangle T) : List (Triangle T) :=
  [t]

/-- `impl EmitTriangles for Quad`: the fixed diagonal split (x,y,z), (z,w,x). -/
def Quad.emit_triangles {T : Type} (q : Quad T) : List (Triangle T) :=
  [Triangle.mk q.x q.y q.z, Triangle.mk q.z q.w q.x]

/-- The `while let Some(vert) = v_iter.next() { emit(start, recent, vert);
recent = vert }` fan loop of `impl EmitTriangles for NGon`. -/
def fanTris {T : Type} (start : T) : T → List T → List (Triangle T)
  | _, [] => []
  | recent, v :: rest => Triangle.mk start recent v :: fanTris start v rest

/-- `impl EmitTriangles for NGon`: fan triangulation from the first vertex.
(The `debug_assert!(self.verts.len() >= 3)` is compiled out in release
builds and is not modelled.) -/
def NGon.emit_triangles {T : Type} (g : NGon T) : List (Triangle T) :=
  match g.verts with
  | [] => []
  | [_] => []
  | s :: r :: rest => fanTris s r rest

/-- `impl EmitTriangles for Polygon`: dispatch on the variant. -/
def Polygon.emit_triangles {T : Type} : Polygon T → List (Triangle T)
  | .PolyTri t => t.emit_triangles
  | .PolyQuad q => q.emit_triangles
  | .PolyNGon g => g.emit_triangles

/-! ## Vertex mapping (`MapVertex` impls in `src/poly.rs`) -/

/-- `impl MapVertex for Triangle`. -/
def Triangle.map_vertex {T U : Type} (t : Triangle T) (f : T → U) : Triangle U :=
  Triangle.mk (f t.x) (f t.y) (f t.z)

/-- `impl MapVertex for Quad`. -/
def Quad.map_vertex {T U : Type} (q : Quad T) (f : T → U) : Quad U :=
  Quad.mk (f q.x) (f q.y) (f q.z) (f q.w)

/-- `impl MapVertex for NGon`: rebuild by pushing `map(vert)` in order. -/
def NGon.map_vertex {T U : Type} (g : NGon T) (f : T → U) : NGon U :=
  NGon.mk (g.verts.map f)

/-- `impl MapVertex for Polygon`: dispatch on the variant. -/
def Polygon.map_vertex {T U : Type} (p : Polygon T) (f : T → U) : Polygon U :=
  match p with
  | .PolyTri t => .PolyTri (t.map_vertex f)
  | .PolyQuad q => .PolyQuad (q.map_vertex f)
  | .PolyNGon g => .PolyNGon (g.map_vertex f)

/-! ## Helper lemmas about the emission loops -/

/-- The edge loop produces exactly the consecutive pairs of its input. -/
theorem lineChain_eq_zipWith {T : Type} :
    ∀ (v : T) (vs : List T), lineChain v vs = List.zipWith Line.mk (v :: vs) vs := by
  intro v vs
  induction vs generalizing v with
  | nil => rfl
  | cons e rest ih => simp [lineChain, List.zipWith, ih e]

/-- The fan loop produces exactly the fan triangles over consecutive pairs. -/
theorem fanTris_eq_zipWith {T : Type} (start : T) :
    ∀ (recent : T) (rest : List T),
      fanTris start recent rest =
        List.zipWith (fun a b => Triangle.mk start a b) (recent :: rest) rest := by
  intro recent rest
  induction rest generalizing recent with
  | nil => rfl
  | cons v rest ih => simp [fanTris, List.zipWith, ih v]

/-! ## Claims about the shape algebra -/

/-- Claim C3: triangulating a `Quad` with corners (x, y, z, w) emits exactly the
two triangles (x, y, z) then (z, w, x), in that order, for all corner values. -/
theorem quad_emit_triangles_pair : ∀ (T : Type) (x y z w : T),
    (Quad.mk x y z w).emit_triangles = [Triangle.mk x y z, Triangle.mk z w x] := by
  intro T x y z w
  rfl

/-- Claim C4: edge decomposition emits, for a `Triangle`, the three closing
edges x-y, y-z, z-x; for a `Quad`, the four closing edges x-y, y-z, z-w, w-x;
and for an `NGon` with corners vs exactly the consecutive edges
`zipWith Line.mk vs vs.tail` — that is, the n−1 edges v0-v1, …, v(n-2)-v(n-1)
in order, never a closing edge v(n-1)-v0. -/
theorem emit_lines_spec : ∀ (T : Type) (x y z w : T) (vs : List T),
    (Triangle.mk x y z).emit_lines = [Line.mk x y, Line.mk y z, Line.mk z x] ∧
    (Quad.mk x y z w).emit_lines =
      [Line.mk x y, Line.mk y z, Line.mk z w, Line.mk w x] ∧
    (NGon.mk vs).emit_lines = List.zipWith Line.mk vs vs.tail ∧
    (NGon.mk vs).emit_lines.length = vs.length - 1 := by
  intro T x y z w vs
  refine ⟨rfl, rfl, ?_, ?_⟩
  · cases vs with
    | nil => rfl
    | cons v rest => simpa [NGon.emit_lines] using lineChain_eq_zipWith v rest
  · cases vs with
    | nil => rfl
    | cons v rest =>
      simp [NGon.emit_lines, lineChain_eq_zipWith v rest]

/-- Claim C5: triangulating an `NGon` with corners v0 :: v1 :: rest (so any
corner count n ≥ 2, which includes all n ≥ 3) emits exactly the fan triangles
Triangle(v0, v(i), v(i+1)) for i = 1 .. n−2 in increasing order of i — that is,
`zipWith (Triangle.mk v0) (v1 :: rest) rest` — and hence exactly n−2 of them. -/
theorem ngon_emit_triangles_fan : ∀ (T : Type) (v0 v1 : T) (rest : List T),
    (NGon.mk (v0 :: v1 :: rest)).emit_triangles =
      List.zipWith (fun a b => Triangle.mk v0 a b) (v1 :: rest) rest ∧
    (NGon.mk (v0 :: v1 :: rest)).emit_triangles.length =
      (v0 :: v1 :: rest).length - 2 := by
  intro T v0 v1 rest
  constructor
  · simpa [NGon.emit_triangles] using fanTris_eq_zipWith v0 v1 rest
  · simp [NGon.emit_triangles, fanTris_eq_zipWith v0 v1 rest]

/-- Claim C6 fails as stated: an `NGon` with exactly 2 corners has fewer than 3
corners, yet its edge decomposition emits one edge, not zero items. -/
theorem ngon_two_corners_emits_line :
    (NGon.mk ([0, 1] : List Nat)).verts.length < 3 ∧
    (NGon.mk ([0, 1] : List Nat)).emit_lines.length = 1 := by
  constructor
  · decide
  · rfl

/-- Claim C6, amended: for every `NGon` with fewer than 3 corners, triangulation
emits zero items, and edge decomposition emits `corner count − 1` items (zero
for fewer than 2 corners, the single edge v0-v1 for exactly 2); both complete
normally, producing these lists. -/
theorem ngon_degenerate_emission : ∀ (T : Type) (g : NGon T),
    g.verts.length < 3 →
    g.emit_triangles = [] ∧ g.emit_lines.length = g.verts.length - 1 := by
  intro T g h
  match g, h with
  | ⟨[]⟩, _ => exact ⟨rfl, rfl⟩
  | ⟨[_]⟩, _ => exact ⟨rfl, rfl⟩
  | ⟨[_, _]⟩, _ => exact ⟨rfl, rfl⟩

/-- Witness for the amended claim C6 at the concrete 2-corner NGon [0, 1]. -/
theorem ngon_degenerate_emission_witness :
    (NGon.mk ([0, 1] : List Nat)).verts.length < 3 ∧
    ((NGon.mk ([0, 1] : List Nat)).emit_triangles = [] ∧
      (NGon.mk ([0, 1] : List Nat)).emit_lines.length =
        (NGon.mk ([0, 1] : List Nat)).verts.length - 1) :=
  ⟨by decide, ngon_degenerate_emission Nat (NGon.mk [0, 1]) (by decide)⟩

/-- Claim C8: vertex mapping yields a polygon of the same variant, whose
emitted corner sequence is exactly the original corner sequence mapped through
f — hence the same corner count, the same order, and f(corner) at each
position. -/
theorem map_vertex_shape_preserving : ∀ (T U : Type) (f : T → U) (p : Polygon T),
    (p.map_vertex f).kind = p.kind ∧
    (p.map_vertex f).emit_vertices = p.emit_vertices.map f ∧
    (p.map_vertex f).emit_vertices.length = p.emit_vertices.length := by
  intro T U f p
  cases p with
  | PolyTri t =>
    exact ⟨rfl, rfl, rfl⟩
  | PolyQuad q =>
    exact ⟨rfl, rfl, rfl⟩
  | PolyNGon g =>
    refine ⟨rfl, rfl, ?_⟩
    simp [Polygon.map_vertex, NGon.map_vertex, Polygon.emit_vertices,
      NGon.emit_vertices]

/-! ## The buffered one-to-many streaming adapters

`VertexStreamIterator::next` (`src/poly.rs`), `LinesIterator::next`
(`src/poly.rs`) and `TriangulateIterator::next` (`src/triangulate.rs`) are the
same loop instantiated at the three emission protocols: pop the front of the
local `VecDeque` buffer if possible; otherwise pull the next upstream shape,
run its emission into the buffer and repeat; return `None` when upstream is
exhausted. The adapter state is (remaining upstream shapes, buffer). -/

/-- One call of the shared adapter `next` loop: on state (ps, buf), pop the
front of the buffer if nonempty; else pull a shape from ps, append its emission
to the buffer, and loop; `none` when both are exhausted. -/
def adapterNext {P W : Type} (emit : P → List W) : List P → List W → Option (W × List P × List W)
  | ps, v :: buf => some (v, ps, buf)
  | [], [] => none
  | p :: ps, [] => adapterNext emit ps (emit p)

/-- The full item sequence an adapter yields from state (ps, buf): repeated
calls of the `next` loop until it returns `none`. -/
def adapterDrain {P W : Type} (emit : P → List W) : List P → List W → List W
  | ps, v :: buf => v :: adapterDrain emit ps buf
  | [], [] => []
  | p :: ps, [] => adapterDrain emit ps (emit p)
termination_by ps buf => (ps.length, buf.length)

/-- The in-order concatenation of the per-shape emission sequences. -/
def emitAll {P W : Type} (emit : P → List W) : List P → List W
  | [] => []
  | p :: ps => emit p ++ emitAll emit ps

/-- `LinesIterator::size_hint` (`src/poly.rs`): lower bound copied from
upstream, upper bound unknown. -/
def linesSizeHint (srcHint : Nat × Option Nat) : Nat × Option Nat :=
  (srcHint.1, none)

/-- `TriangulateIterator::size_hint` (`src/triangulate.rs`): lower bound copied
from upstream, upper bound unknown. -/
def triangulateSizeHint (srcHint : Nat × Option Nat) : Nat × Option Nat :=
  (srcHint.1, none)

/-- Draining an adapter yields the buffer then the concatenated emissions. -/
theorem adapterDrain_eq {P W : Type} (emit : P → List W) :
    ∀ (ps : List P) (buf : List W),
      adapterDrain emit ps buf = buf ++ emitAll emit ps := by
  intro ps
  induction ps with
  | nil =>
    intro buf
    induction buf with
    | nil => simp [adapterDrain, emitAll]
    | cons v b ihb => simp [adapterDrain, emitAll] at ihb ⊢; exact ihb
  | cons p ps ihp =>
    intro buf
    induction buf with
    | nil =>
      rw [adapterDrain, ihp (emit p)]
      simp [emitAll]
    | cons v b ihb =>
      rw [adapterDrain, ihb]
      simp

/-- The adapter `next` loop returns `none` exactly when the buffer is empty and
every remaining upstream shape emits nothing. -/
theorem adapterNext_eq_none {P W : Type} (emit : P → List W) :
    ∀ (ps : List P) (buf : List W),
      adapterNext emit ps buf = none ↔ buf = [] ∧ emitAll emit ps = [] := by
  intro ps
  induction ps with
  | nil =>
    intro buf
    cases buf <;> simp [adapterNext, emitAll]
  | cons p ps ih =>
    intro buf
    cases buf with
    | cons v b => simp [adapterNext]
    | nil =>
      rw [show adapterNext emit (p :: ps) [] = adapterNext emit ps (emit p) from rfl,
        ih (emit p)]
      simp [emitAll]

/-- Each pull that yields an item leaves a residual state whose drain is the
tail: popping via `adapterNext` and draining agree. -/
theorem adapterDrain_cons_of_next {P W : Type} (emit : P → List W)
    (ps : List P) (buf : List W) :
    ∀ v ps2 buf2, adapterNext emit ps buf = some (v, ps2, buf2) →
      adapterDrain emit ps buf = v :: adapterDrain emit ps2 buf2 := by
  induction ps generalizing buf with
  | nil =>
    intro v ps2 buf2 h
    cases buf with
    | nil => simp [adapterNext] at h
    | cons a b =>
      simp [adapterNext] at h
      obtain ⟨h1, h2, h3⟩ := h
      subst h1; subst h2; subst h3
      rw [adapterDrain]
  | cons p ps ih =>
    intro v ps2 buf2 h
    cases buf with
    | cons a b =>
      simp [adapterNext] at h
      obtain ⟨h1, h2, h3⟩ := h
      subst h1; subst h2; subst h3
      rw [adapterDrain]
    | nil =>
      rw [show adapterNext emit (p :: ps) [] = adapterNext emit ps (emit p) from rfl] at h
      rw [adapterDrain]
      exact ih (emit p) v ps2 buf2 h

/-- Claim C7: for every finite upstream shape sequence, the item sequence a
buffered adapter (vertices, lines, or triangulate) produces equals the in-order
concatenation of the per-shape emission sequences — generally, from any state
the drain is buffer-first then concatenated emissions, so items come out FIFO
in emission order and empty emissions contribute nothing — and the adapter
returns `none` exactly when the buffer is empty and the remaining upstream
emissions are all empty (in particular exactly when upstream is exhausted,
once the emptily-emitting shapes have been consumed). -/
theorem adapter_flattens_emissions : ∀ (T : Type) (ps : List (Polygon T)),
    adapterDrain Polygon.emit_vertices ps [] = emitAll Polygon.emit_vertices ps ∧
    adapterDrain Polygon.emit_lines ps [] = emitAll Polygon.emit_lines ps ∧
    adapterDrain Polygon.emit_triangles ps [] = emitAll Polygon.emit_triangles ps ∧
    (∀ (W : Type) (emit : Polygon T → List W) (buf : List W),
      adapterDrain emit ps buf = buf ++ emitAll emit ps ∧
      (adapterNext emit ps buf = none ↔ buf = [] ∧ emitAll emit ps = [])) := by
  intro T ps
  refine ⟨by simp [adapterDrain_eq], by simp [adapterDrain_eq],
    by simp [adapterDrain_eq], ?_⟩
  intro W emit buf
  exact ⟨adapterDrain_eq emit ps buf, adapterNext_eq_none emit ps buf⟩

/-- If every shape emits at least one item, the upstream shape count bounds the
total emission count from below. -/
theorem length_le_emitAll {P W : Type} (emit : P → List W) :
    ∀ (ps : List P), (∀ p ∈ ps, emit p ≠ []) →
      ps.length ≤ (emitAll emit ps).length := by
  intro ps
  induction ps with
  | nil => intro _; simp [emitAll]
  | cons p ps ih =>
    intro h
    have hp : emit p ≠ [] := h p (List.mem_cons_self p ps)
    have hlen : 1 ≤ (emit p).length := by
      cases hemit : emit p with
      | nil => exact absurd hemit hp
      | cons a l => simp
    have := ih fun q hq => h q (List.mem_cons_of_mem p hq)
    simp only [emitAll, List.length_cons, List.length_append]
    omega

/-- Claim C9 fails as stated: a single degenerate (2-corner) NGon upstream has
shape count 1 — and `triangulateSizeHint` reports lower bound 1 — but the
triangulate adapter yields the empty item sequence, so the reported count is
not a lower bound on the number of items actually yielded. -/
theorem size_hint_lower_bound_fails :
    triangulateSizeHint (1, some 1) = (1, none) ∧
    adapterDrain Polygon.emit_triangles
      [Polygon.PolyNGon (NGon.mk ([0, 1] : List Nat))] [] = [] ∧
    decide ((1 : Nat) ≤ (([] : List (Triangle Nat)).length)) = false := by
  refine ⟨rfl, ?_, by decide⟩
  rw [adapterDrain_eq]
  rfl

/-- Claim C9, amended: the lines and triangulate adapters report a size
estimate whose lower bound is the upstream lower bound and whose upper bound is
unknown; and for every finite upstream sequence in which every shape's emission
is nonempty (in particular, when no degenerate NGon occurs), the upstream shape
count is a valid lower bound on the number of items the adapter yields. -/
theorem size_hint_spec : ∀ (T : Type) (lo : Nat) (hi : Option Nat)
    (ps : List (Polygon T)),
    (ps.all fun p => !(p.emit_lines.isEmpty)) = true →
    (ps.all fun p => !(p.emit_triangles.isEmpty)) = true →
    linesSizeHint (lo, hi) = (lo, none) ∧
    triangulateSizeHint (lo, hi) = (lo, none) ∧
    ps.length ≤ (adapterDrain Polygon.emit_lines ps []).length ∧
    ps.length ≤ (adapterDrain Polygon.emit_triangles ps []).length := by
  intro T lo hi ps hL hT
  rw [List.all_eq_true] at hL hT
  refine ⟨rfl, rfl, ?_, ?_⟩
  · rw [adapterDrain_eq]
    refine length_le_emitAll _ ps fun p hp => ?_
    have := hL p hp
    simpa using this
  · rw [adapterDrain_eq]
    refine length_le_emitAll _ ps fun p hp => ?_
    have := hT p hp
    simpa using this

/-- Witness for the amended claim C9 at a one-triangle upstream sequence. -/
theorem size_hint_spec_witness :
    (([Polygon.PolyTri (Triangle.mk (0 : Nat) 1 2)].all
        fun p => !(p.emit_lines.isEmpty)) = true) ∧
    (([Polygon.PolyTri (Triangle.mk (0 : Nat) 1 2)].all
        fun p => !(p.emit_triangles.isEmpty)) = true) ∧
    (linesSizeHint (1, some 1) = (1, none) ∧
      triangulateSizeHint (1, some 1) = (1, none) ∧
      [Polygon.PolyTri (Triangle.mk (0 : Nat) 1 2)].length ≤
        (adapterDrain Polygon.emit_lines
          [Polygon.PolyTri (Triangle.mk (0 : Nat) 1 2)] []).length ∧
      [Polygon.PolyTri (Triangle.mk (0 : Nat) 1 2)].length ≤
        (adapterDrain Polygon.emit_triangles
          [Polygon.PolyTri (Triangle.mk (0 : Nat) 1 2)] []).length) :=
  ⟨by decide, by decide,
    size_hint_spec Nat 1 (some 1) [Polygon.PolyTri (Triangle.mk 0 1 2)]
      (by decide) (by decide)⟩

/-! ## Generators

The platonic-solid generators compute every corner by applying their private
`vert` function (a floating-point position/normal computation) to integer
entries of a constant `FACES` table; the embedding keeps `vert : Nat → V`
abstract and models the integer topology exactly. An `Iterator` is modelled as
a step function `state → Option (item × state)`; `iterNth step k s` is the
result of the (k+1)-th pull starting from state `s`. -/

/-- The result of the (k+1)-th `next()` call of an iterator modelled as a step
function, starting from state `s`. -/
def iterNth {σ α : Type} (step : σ → Option (α × σ)) : Nat → σ → Option α
  | 0, s => (step s).map Prod.fst
  | n + 1, s =>
    match step s with
    | none => none
    | some (_, s2) => iterNth step n s2

namespace Tetrahedron

/-- The `FACES` table of `src/tetrahedron.rs`. -/
def FACES : List (Nat × Nat × Nat) := [(0, 2, 1), (2, 3, 1), (0, 1, 3), (0, 3, 2)]

/-- `shared_vertex_count`: the length of the `VERTICES` table. -/
def shared_vertex_count : Nat := 4

/-- `indexed_polygon_count`: the length of the `FACES` table. -/
def indexed_polygon_count : Nat := FACES.length

/-- `Tetrahedron::indexed_polygon`: the face as a triangle of indices. -/
def indexed_polygon (idx : Nat) : Polygon Nat :=
  let f := FACES.getD idx (0, 0, 0)
  Polygon.PolyTri (Triangle.mk f.1 f.2.1 f.2.2)

/-- `Tetrahedron::next` (`impl Iterator`): `None` once `i` reaches
`FACES.len()`, else the face-`i` triangle through `vert`. The returned state is
`i` unchanged, because the source never increments `self.i`. -/
def next {V : Type} (vert : Nat → V) (i : Nat) : Option (Polygon V × Nat) :=
  if i = FACES.length then none
  else
    let f := FACES.getD i (0, 0, 0)
    some (Polygon.PolyTri (Triangle.mk (vert f.1) (vert f.2.1) (vert f.2.2)), i)

end Tetrahedron

namespace Octahedron

/-- The `FACES` table of `src/octahedron.rs`. -/
def FACES : List (Nat × Nat × Nat) :=
  [(3, 0, 4), (2, 3, 4), (1, 2, 4), (0, 1, 4),
   (3, 2, 5), (0, 3, 5), (2, 1, 5), (1, 0, 5)]

/-- `shared_vertex_count`: the length of the `VERTICES` table. -/
def shared_vertex_count : Nat := 6

/-- `indexed_polygon_count`: the length of the `FACES` table. -/
def indexed_polygon_count : Nat := FACES.length

/-- `Octahedron::indexed_polygon`: the face as a triangle of indices. -/
def indexed_polygon (idx : Nat) : Polygon Nat :=
  let f := FACES.getD idx (0, 0, 0)
  Polygon.PolyTri (Triangle.mk f.1 f.2.1 f.2.2)

/-- `Octahedron::next` (`impl Iterator`): `None` once `i` reaches
`FACES.len()`, else the face-`i` triangle through `vert`. The returned state is
`i` unchanged, because the source never increments `self.i`. -/
def next {V : Type} (vert : Nat → V) (i : Nat) : Option (Polygon V × Nat) :=
  if i = FACES.length then none
  else
    let f := FACES.getD i (0, 0, 0)
    some (Polygon.PolyTri (Triangle.mk (vert f.1) (vert f.2.1) (vert f.2.2)), i)

end Octahedron

namespace Dodecahedron

/-- The 12 pentagonal `FACES` of `src/dodecahedron.rs`. -/
def FACES : List (List Nat) :=
  [[0, 1, 2, 3, 4],
   [1, 0, 6, 12, 7],
   [2, 1, 7, 13, 8],
   [3, 2, 8, 14, 9],
   [4, 3, 9, 10, 5],
   [0, 4, 5, 11, 6],
   [17, 18, 12, 6, 11],
   [18, 19, 13, 7, 12],
   [19, 15, 14, 8, 13],
   [15, 16, 10, 9, 14],
   [16, 17, 11, 5, 10],
   [15, 19, 18, 17, 16]]

/-- `shared_vertex_count`: the length of the `VERTICES` table. -/
def shared_vertex_count : Nat := 20

/-- `indexed_polygon_count`: the length of the `FACES` table. -/
def indexed_polygon_count : Nat := FACES.length

/-- `Dodecahedron::indexed_polygon`: the face as an NGon of its five indices. -/
def indexed_polygon (idx : Nat) : Polygon Nat :=
  Polygon.PolyNGon (NGon.mk (FACES.getD idx []))

end Dodecahedron

namespace Cone

/-- The `VertexSection` enum of `src/cone.rs`. -/
inductive VertexSection where
  | Tip : Nat → VertexSection
  | TopRadius : Nat → VertexSection
  | BottomRadius : Nat → VertexSection
  | BottomCenter : VertexSection

/-- `Cone::index`: the dense shared-pool index of a vertex section, for a cone
with `sub_u = subU` subdivisions. -/
def index (subU : Nat) : VertexSection → Nat
  | .Tip i => i
  | .TopRadius i => i + subU
  | .BottomRadius i => i + subU * 2
  | .BottomCenter => subU * 3

/-- `Cone::shared_vertex_count`: `sub_u * 3 + 1`. -/
def shared_vertex_count (subU : Nat) : Nat := subU * 3 + 1

/-- `Cone::indexed_polygon_count`: `sub_u * 2`. -/
def indexed_polygon_count (subU : Nat) : Nat := subU * 2

/-- `Cone::indexed_polygon`: a top-fan triangle for `idx < sub_u`, else a
bottom-fan triangle, with indices through `Cone::index`. -/
def indexed_polygon (subU idx : Nat) : Polygon Nat :=
  if idx < subU then
    let nxt := if idx ≠ subU - 1 then idx + 1 else 0
    Polygon.PolyTri (Triangle.mk
      (index subU (VertexSection.Tip idx))
      (index subU (VertexSection.TopRadius idx))
      (index subU (VertexSection.TopRadius nxt)))
  else
    let i2 := idx - subU
    let nxt := if i2 ≠ subU - 1 then i2 + 1 else 0
    Polygon.PolyTri (Triangle.mk
      (index subU VertexSection.BottomCenter)
      (index subU (VertexSection.BottomRadius nxt))
      (index subU (VertexSection.BottomRadius i2)))

end Cone

/-! ## Claims about the generators -/

/-- The tetrahedron stream step from state 0 yields the face-0 triangle and
leaves the state at 0. -/
theorem tetra_next_zero {V : Type} (vert : Nat → V) :
    Tetrahedron.next vert 0 =
      some (Polygon.PolyTri (Triangle.mk (vert 0) (vert 2) (vert 1)), 0) := rfl

/-- The octahedron stream step from state 0 yields the face-0 triangle and
leaves the state at 0. -/
theorem octa_next_zero {V : Type} (vert : Nat → V) :
    Octahedron.next vert 0 =
      some (Polygon.PolyTri (Triangle.mk (vert 3) (vert 0) (vert 4)), 0) := rfl

/-- Every pull of the tetrahedron stream yields the face-0 triangle. -/
theorem tetra_iterNth {V : Type} (vert : Nat → V) :
    ∀ k, iterNth (Tetrahedron.next vert) k 0 =
      some (Polygon.PolyTri (Triangle.mk (vert 0) (vert 2) (vert 1))) := by
  intro k
  induction k with
  | zero => rfl
  | succ k ih =>
    rw [iterNth, tetra_next_zero]
    exact ih

/-- Every pull of the octahedron stream yields the face-0 triangle. -/
theorem octa_iterNth {V : Type} (vert : Nat → V) :
    ∀ k, iterNth (Octahedron.next vert) k 0 =
      some (Polygon.PolyTri (Triangle.mk (vert 3) (vert 0) (vert 4))) := by
  intro k
  induction k with
  | zero => rfl
  | succ k ih =>
    rw [iterNth, octa_next_zero]
    exact ih

/-- Claim C2 fails on the code: because `Tetrahedron::next` and
`Octahedron::next` never increment `self.i`, their streams yield an item on
every pull, for every pull count k, and so never return `None`: the streaming
sequence is not finite. -/
theorem tetra_octa_never_exhaust : ∀ (V : Type) (vert : Nat → V) (k : Nat),
    (iterNth (Tetrahedron.next vert) k 0).isSome = true ∧
    (iterNth (Octahedron.next vert) k 0).isSome = true := by
  intro V vert k
  rw [tetra_iterNth vert k, octa_iterNth vert k]
  exact ⟨rfl, rfl⟩

/-- Claim C1 fails on the code: with the corner function kept abstract as the
identity on indices, the second pull (face index 1) of the tetrahedron stream
yields `indexed_polygon 0` mapped through the pool lookup — the stream repeats
face 0 because `self.i` is never incremented — which differs from
`indexed_polygon 1` mapped through the pool lookup. -/
theorem tetra_stream_indexed_diverge :
    iterNth (Tetrahedron.next (fun n => n)) 1 0 =
      some ((Tetrahedron.indexed_polygon 0).map_vertex (fun n => n)) ∧
    (Tetrahedron.indexed_polygon 1).map_vertex (fun n => n) =
      Polygon.PolyTri (Triangle.mk 2 3 1) ∧
    decide ((Tetrahedron.indexed_polygon 0).map_vertex (fun n => n) =
      (Tetrahedron.indexed_polygon 1).map_vertex (fun n => n)) = false := by
  refine ⟨by decide, by decide, by decide⟩

/-- Claim C10: for every generator and every in-range face index, every vertex
index contained in the indexed polygon is strictly below the shared-vertex
count, so every pool lookup implied by an indexed face is in bounds. For the
cone this holds for every `sub_u ≥ 2` (the constructor's assertion). -/
theorem indexed_polygon_indices_in_bounds :
    (∀ subU idx : Nat, 2 ≤ subU → idx < Cone.indexed_polygon_count subU →
      ((Cone.indexed_polygon subU idx).emit_vertices.all
        fun v => decide (v < Cone.shared_vertex_count subU)) = true) ∧
    (∀ idx : Nat, idx < Tetrahedron.indexed_polygon_count →
      ((Tetrahedron.indexed_polygon idx).emit_vertices.all
        fun v => decide (v < Tetrahedron.shared_vertex_count)) = true) ∧
    (∀ idx : Nat, idx < Octahedron.indexed_polygon_count →
      ((Octahedron.indexed_polygon idx).emit_vertices.all
        fun v => decide (v < Octahedron.shared_vertex_count)) = true) ∧
    (∀ idx : Nat, idx < Dodecahedron.indexed_polygon_count →
      ((Dodecahedron.indexed_polygon idx).emit_vertices.all
        fun v => decide (v < Dodecahedron.shared_vertex_count)) = true) := by
  refine ⟨?_, by decide, by decide, by decide⟩
  intro subU idx h2 hidx
  rw [Cone.indexed_polygon_count] at hidx
  rw [Cone.indexed_polygon]
  split_ifs <;>
    simp only [Cone.index, Polygon.emit_vertices, Triangle.emit_vertices,
      Cone.shared_vertex_count, List.all_cons, List.all_nil, Bool.and_eq_true,
      decide_eq_true_eq, and_true] <;>
    first
      | omega
      | (split_ifs <;> omega)

/-- Witness for claim C10 at concrete face indices of each generator. -/
theorem indexed_polygon_indices_in_bounds_witness :
    (((Cone.indexed_polygon 2 0).emit_vertices.all
      fun v => decide (v < Cone.shared_vertex_count 2)) = true) ∧
    (((Tetrahedron.indexed_polygon 0).emit_vertices.all
      fun v => decide (v < Tetrahedron.shared_vertex_count)) = true) ∧
    (((Octahedron.indexed_polygon 0).emit_vertices.all
      fun v => decide (v < Octahedron.shared_vertex_count)) = true) ∧
    (((Dodecahedron.indexed_polygon 0).emit_vertices.all
      fun v => decide (v < Dodecahedron.shared_vertex_count)) = true) :=
  ⟨indexed_polygon_indices_in_bounds.1 2 0 (by decide) (by decide),
    indexed_polygon_indices_in_bounds.2.1 0 (by decide),
    indexed_polygon_indices_in_bounds.2.2.1 0 (by decide),
    indexed_polygon_indices_in_bounds.2.2.2 0 (by decide)⟩

end Genmesh
